import Mathlib

/-!
Verification of the Thai typo-checker (src/app.py) against its specification.

Python strings are modelled as `List Char` (Python `len`/indexing count code
points, as does `List Char`).  Python functions that can raise are modelled in
`Except`.  The external `thaispellcheck.check` library call is modelled as an
oracle `Detector`; `docx` paragraph extraction is modelled by passing the list
of paragraph texts directly.  Streamlit UI calls (progress bar, titles) have no
effect on the computed results and are omitted.
-/

set_option maxRecDepth 16384

namespace ThaiChecker

/-- Shorthand: the characters of a Lean string literal. -/
def s2c (s : String) : List Char := s.toList

/-- The apostrophe character (written via its code point to keep source lines
free of bare quote characters). -/
def apos : Char := Char.ofNat 39

/-- U+0E3A THAI CHARACTER PHINTHU, the constant `PHINTHU` of app.py. -/
def phinthuChar : Char := Char.ofNat 0x0E3A

/-- Python `needle in hay` (substring containment) for strings. -/
def containsSub (needle : List Char) : List Char → Bool
  | [] => needle.isPrefixOf []
  | c :: cs => needle.isPrefixOf (c :: cs) || containsSub needle cs

/-- Helper for `replaceAll`; the fuel starts at `hay.length + 1`, and every
step consumes at least one character of `hay`, so the fuel never runs out. -/
def replaceAllAux (needle repl : List Char) : Nat → List Char → List Char
  | 0, hay => hay
  | fuel + 1, hay =>
    if !needle.isEmpty && needle.isPrefixOf hay then
      repl ++ replaceAllAux needle repl fuel (hay.drop needle.length)
    else
      match hay with
      | [] => []
      | c :: cs => c :: replaceAllAux needle repl fuel cs

/-- Python `hay.replace(needle, repl)`: replace every non-overlapping
occurrence, scanning left to right, never re-scanning replacement text.
(All needles used in app.py are non-empty; the empty-needle edge case of
Python, which interleaves `repl` everywhere, does not arise.) -/
def replaceAll (needle repl hay : List Char) : List Char :=
  replaceAllAux needle repl (hay.length + 1) hay

/-- Python `str.strip()` whitespace test, restricted to the ASCII whitespace
characters (the only whitespace occurring in the texts considered here;
Python also strips other Unicode whitespace). -/
def pyIsSpaceChar (c : Char) : Bool :=
  c = ' ' || c = '\t' || c = '\n' || c = '\r' || c = '\x0b' || c = '\x0c'

/-- Python `text.strip()`. -/
def pyStrip (s : List Char) : List Char :=
  ((s.dropWhile pyIsSpaceChar).reverse.dropWhile pyIsSpaceChar).reverse

/-- Python decimal-digit value as matched by `\d` in `re`, covering ASCII and
Thai digits (the two digit scripts appearing in these documents; `\d` in
Python also matches other Unicode decimal digits). -/
def digitVal (c : Char) : Option Nat :=
  if '0' ≤ c ∧ c ≤ '9' then some (c.toNat - 48)
  else if 0x0E50 ≤ c.toNat ∧ c.toNat ≤ 0x0E59 then some (c.toNat - 0x0E50)
  else none

/-- Character class test for `\d`. -/
def isReDigit (c : Char) : Bool := (digitVal c).isSome

/-- Python `int()` of a digit string (as produced by the `(\d+)` group). -/
def natOfDigits (ds : List Char) : Nat :=
  ds.foldl (fun n c => 10 * n + (digitVal c).getD 0) 0

/-- app.py line 108: `re.match(r"^[Ll](\d+):", text)`.  Returns the captured
number (`int(l_match.group(1))`, line 110) and the full matched text
(`l_match.group(0)`, line 274).  The regex is anchored; `\d+` is greedy, and
since `:` is not a digit the match is deterministic. -/
def lMatch (text : List Char) : Option (Nat × List Char) :=
  match text with
  | [] => none
  | c :: rest =>
    if c = 'L' || c = 'l' then
      let ds := rest.takeWhile isReDigit
      if ds.isEmpty then none
      else
        match rest.drop ds.length with
        | ':' :: _ => some (natOfDigits ds, c :: (ds ++ [':']))
        | _ => none
    else none

/-- The kind of Python exception that escapes uncaught in app.py:
`find_invalid_periods` (lines 44-55) references the undefined name
`VALID_PERIOD_PATTERns` (the constant defined on line 18 is spelled
`VALID_PERIOD_PATTERNS`; Python names are case sensitive), raising
`NameError` as soon as the loop body runs. -/
inductive PyErr where
  | nameError
  deriving DecidableEq, Repr

/-- app.py lines 44-55, `find_invalid_periods(text)`: iterate over every
match of `re.finditer(r"\.", text)`; for the first match the inner loop
header `for pattern in VALID_PERIOD_PATTERns:` raises `NameError`
(undefined name).  Hence: any text containing a literal `.` raises, and a
text with no period returns the empty list. -/
def find_invalid_periods : List Char → Except PyErr (List Nat)
  | [] => Except.ok []
  | c :: cs =>
    if c = '.' then Except.error PyErr.nameError
    else find_invalid_periods cs

/-- The `COMMON_ERRORS` constant of app.py (lines 9-15).  Python stores it as
a `set`; it is modelled as the deduplicated list in source order (the literal
lists `"แกไข"` twice).  Python set iteration order is unspecified; the order
below is only used where it is observationally irrelevant. -/
def COMMON_ERRORS : List (List Char) :=
  [ s2c "เข่น", s2c "ล่ง", s2c "สาย", s2c "ขี้", s2c "ขื่อ", s2c "ศักดิ๋", s2c "ขัก",
    s2c "ฃ้ือ", s2c "ชื้อ", s2c "แกไข", s2c "ที" ++ [apos],
    s2c "บาย", s2c "ข่วย", s2c "แก่ไข", s2c "สมาซิก", s2c "ไมได้", s2c "ครังที",
    s2c "ฤทธ๋", s2c "ศักด๋", s2c "ด้งนี้",
    s2c "มดิ", s2c "ซัดเจน", s2c "เพิ่มเดิม", s2c "เลียหาย", s2c "ส่ง", s2c "มบุษยชน",
    s2c "สิทธิ๔", s2c "เดิมฺ",
    s2c "ขุม", s2c "นันทํ", s2c "ๆ", s2c "ไซด์", s2c "เร้ยีน", s2c "ประจา", s2c "ที",
    s2c "สา", s2c "คู", s2c "ชอง", s2c "ทนี่ง",
    s2c "เหลีอมลา", s2c "ลี", s2c "ซาน", s2c "โช๊ะ", s2c "โฃ๊ะ", s2c "สถาน", s2c "เมือ",
    s2c "กัมพูขา", s2c "สิทธิมบุษยชน",
    s2c "ศคินันท์", s2c "กณวีร์", s2c "๙0", s2c "ชั้น", s2c "ลูก", s2c "ศักดิ์",
    s2c "ทันตแพทย์สภา", s2c "ไว",
    s2c "รับพิง", s2c "คิริโรจน์", s2c "ชักถาม" ]

/-- app.py lines 58-59: `find_common_errors(text)` returns
`[word for word in COMMON_ERRORS if word in text]` — a Python *substring*
containment test, not a token-boundary match. -/
def find_common_errors (text : List Char) : List (List Char) :=
  COMMON_ERRORS.filter (fun w => containsSub w text)

/-- The opening marker `<คำผิด>` inserted by the `thaispellcheck` library. -/
def kamphitOpen : List Char := s2c "<คำผิด>"

/-- The closing marker `</คำผิด>`. -/
def kamphitClose : List Char := s2c "</คำผิด>"

/-- The external spell-check library, modelled as an oracle: `Except.error`
models `thaispellcheck.check` raising, `Except.ok m` models it returning the
marked text `m`. -/
def Detector : Type := List Char → Except Unit (List Char)

/-- app.py line 68: `marked.replace("<คำผิด>", "").replace("</คำผิด>", "")`. -/
def stripKamphitTags (m : List Char) : List Char :=
  replaceAll kamphitClose [] (replaceAll kamphitOpen [] m)

/-- app.py lines 62-74, `safe_check(text)`: call the spell checker inside
`try`; on any exception return `text` unchanged; otherwise, if the marked
output with the marker tags removed is shorter than half of `text`
(`len(clean_marked) < len(text) * 0.5`, which over natural numbers is exactly
`2 * len(clean_marked) < len(text)`, the float scaling by 0.5 being exact),
discard the marked output and return `text`; otherwise return the marked
output. -/
def safe_check (d : Detector) (text : List Char) : List Char :=
  match d text with
  | Except.error _ => text
  | Except.ok marked =>
    let clean := stripKamphitTags marked
    if 2 * clean.length < text.length then text else marked

/-- Loop of app.py lines 84-89 after the first tuple has set `expected_l`:
`expected` is incremented once per entry and never reset, and a mismatching
entry contributes its line number. -/
def find_l_errors_go (expected : Nat) : List (Nat × Nat) → List Nat
  | [] => []
  | (line, cur) :: rest =>
    (if cur ≠ expected then [line] else []) ++ find_l_errors_go (expected + 1) rest

/-- app.py lines 76-90, `find_l_errors(paragraphs_with_l)`: the first tuple
initialises `expected_l` (no error is possible for it) and is followed by
`expected_l += 1`; every later tuple is compared against the running
`expected_l` and then `expected_l += 1` runs unconditionally. -/
def find_l_errors : List (Nat × Nat) → List Nat
  | [] => []
  | (_, l0) :: rest => find_l_errors_go (l0 + 1) rest

/-- One entry of the per-paragraph analysis record built by `check_docx`
(app.py lines 123-132); `l_match` stores `(int(group(1)), group(0))` of the
match object, `l_sequence_error` the flag set on lines 141-145. -/
structure ResultItem where
  line_no : Nat
  original : List Char
  marked : List Char
  has_phinthu : Bool
  has_apostrophe : Bool
  invalid_periods : List Nat
  common_errors : List (List Char)
  l_match : Option (Nat × List Char)
  l_sequence_error : Bool
  deriving DecidableEq, Repr

/-- The loop body of `check_docx` (app.py lines 107-132) for one non-empty
stripped paragraph `text` at 1-based line number `lineNo`: compute the
stylistic flags, run `find_invalid_periods` (which may raise — the only
uncaught raise site), run the spell checker through `safe_check`, and append
a result entry iff any check fired (line 122).  `l_sequence_error` is filled
in later by `check_docx`.  (The source computes the flags and `l_match`
before the possibly-raising `find_invalid_periods` call; they are pure, so
matching on that call first is observationally identical.) -/
def analyzePara (d : Detector) (lineNo : Nat) (text : List Char) :
    Except PyErr (Option ResultItem) :=
  match find_invalid_periods text with
  | Except.error e => Except.error e
  | Except.ok inv =>
    if containsSub kamphitOpen (safe_check d text) || text.contains phinthuChar ||
        text.contains apos || !inv.isEmpty ||
        !(find_common_errors text).isEmpty || (lMatch text).isSome then
      Except.ok (some
        { line_no := lineNo
          original := text
          marked := safe_check d text
          has_phinthu := text.contains phinthuChar
          has_apostrophe := text.contains apos
          invalid_periods := inv
          common_errors := find_common_errors text
          l_match := lMatch text
          l_sequence_error := false })
    else
      Except.ok none

/-- The `(i + 1, l_number)` entry appended to `l_paragraphs` when the L-regex
matches (app.py lines 108-111). -/
def lEntryOf (lineNo : Nat) (text : List Char) : List (Nat × Nat) :=
  match lMatch text with
  | some (n, _) => [(lineNo, n)]
  | none => []

/-- The paragraph loop of `check_docx` (app.py lines 102-135): `i` is the
0-based index of the next paragraph; empty (stripped) paragraphs are skipped
but still advance the index.  Returns the result entries and the
`l_paragraphs` list. -/
def scanParas (d : Detector) :
    Nat → List (List Char) → Except PyErr (List ResultItem × List (Nat × Nat))
  | _, [] => Except.ok ([], [])
  | i, p :: ps =>
    let text := pyStrip p
    if text.isEmpty then scanParas d (i + 1) ps
    else
      match analyzePara d (i + 1) text with
      | Except.error e => Except.error e
      | Except.ok item? =>
        match scanParas d (i + 1) ps with
        | Except.error e => Except.error e
        | Except.ok (rest, lrest) =>
          Except.ok (item?.toList ++ rest, lEntryOf (i + 1) text ++ lrest)

/-- app.py lines 93-147, `check_docx(file)`: scan all paragraphs (any
exception raised inside the loop propagates and aborts the whole scan), then
run `find_l_errors` on the collected `(line_no, l_number)` pairs and set
`l_sequence_error` on each result entry (lines 139-145). -/
def check_docx (d : Detector) (paras : List (List Char)) :
    Except PyErr (List ResultItem) :=
  match scanParas d 0 paras with
  | Except.error e => Except.error e
  | Except.ok (results, lparas) =>
    Except.ok (results.map (fun it =>
      { it with l_sequence_error := (find_l_errors lparas).contains it.line_no }))

/-- Python `html.escape(text)` (quote=True, the default, app.py line 151):
`&` → `&amp;`, `<` → `&lt;`, `>` → `&gt;`, `"` → `&quot;`, apostrophe →
`&#x27;`.  Python performs these as sequential `str.replace` calls with `&`
first, which is extensionally the per-character map below. -/
def escapeChar (c : Char) : List Char :=
  if c = '&' then s2c "&amp;"
  else if c = '<' then s2c "&lt;"
  else if c = '>' then s2c "&gt;"
  else if c = '"' then s2c "&quot;"
  else if c = apos then s2c "&#x27;"
  else [c]

/-- `escape` of app.py line 151. -/
def escape (s : List Char) : List Char := (s.map escapeChar).flatten

/-- The literal text `</mark>`. -/
def closeMark : List Char := s2c "</mark>"

/-- The literal text `<mark`. -/
def openMark5 : List Char := s2c "<mark"

/-- The opening tag produced by `mark(text, color)` (app.py lines 153-154):
`<mark style='background-color:COLOR;'>`. -/
def markTagOpen (color : List Char) : List Char :=
  s2c "<mark style=" ++ [apos] ++ s2c "background-color:" ++ color ++
    [';'] ++ [apos] ++ ['>']

/-- app.py lines 153-154, `mark(text, color)`:
`<mark style='background-color:COLOR;'>TEXT</mark>`. -/
def markTag (color content : List Char) : List Char :=
  markTagOpen color ++ content ++ closeMark

/-- Split a string at its first `>`: returns the characters before it (which
therefore contain no `>`, i.e. a `[^>]*` match) and the characters after it. -/
def findGt : List Char → Option (List Char × List Char)
  | [] => none
  | c :: cs =>
    if c = '>' then some ([], cs)
    else
      match findGt cs with
      | some (b, a) => some (c :: b, a)
      | none => none

/-- Lazily locate the first occurrence of `</mark>` (the `.*?<\/mark>` tail of
the split regex, app.py line 170): returns the characters before it and the
characters after it; fails if a newline intervenes (regex `.` does not match
`\n`) or no `</mark>` follows. -/
def findCloseMark : List Char → Option (List Char × List Char)
  | [] => none
  | c :: cs =>
    if closeMark.isPrefixOf (c :: cs) then some ([], (c :: cs).drop 7)
    else if c = '\n' then none
    else
      match findCloseMark cs with
      | some (b, a) => some (c :: b, a)
      | none => none

/-- Leftmost match of the pattern `<mark[^>]*>.*?<\/mark>` (app.py line 170):
returns `(before, match, after)`.  `[^>]*` deterministically extends to the
first `>`; `.*?` lazily extends to the first following `</mark>`. -/
def findMarkRegion : List Char → Option (List Char × List Char × List Char)
  | [] => none
  | c :: cs =>
    match
      (if openMark5.isPrefixOf (c :: cs) then
        match findGt ((c :: cs).drop 5) with
        | some (attrs, afterGt) =>
          match findCloseMark afterGt with
          | some (between, after) =>
            some (openMark5 ++ attrs ++ ['>'] ++ between ++ closeMark, after)
          | none => none
        | none => none
      else none) with
    | some (region, after) => some ([], region, after)
    | none =>
      match findMarkRegion cs with
      | some (b, r, a) => some (c :: b, r, a)
      | none => none

/-- `re.split(r'(<mark[^>]*>.*?<\/mark>)', s)` (app.py line 170) — with the
capturing group, the match regions appear as parts between the splits.  Fuel
starts at `length + 1`; every match region consumes at least one character. -/
def reSplitMark : Nat → List Char → List (List Char)
  | 0, s => [s]
  | fuel + 1, s =>
    match findMarkRegion s with
    | none => [s]
    | some (b, r, a) => b :: r :: reSplitMark fuel a

/-- The loop of app.py lines 171-177: keep a part verbatim iff it starts with
`<mark` and ends with `</mark>`, otherwise escape it. -/
def escapePart (p : List Char) : List Char :=
  if openMark5.isPrefixOf p && closeMark.isSuffixOf p then p else escape p

/-- app.py lines 170-177 as a whole: split on mark regions, escape the
non-mark parts, and rejoin. -/
def splitEscapeStep (s : List Char) : List Char :=
  ((reSplitMark (s.length + 1) s).map escapePart).flatten

/-- Matching engine for the apostrophe-highlight regex of app.py lines
201-205: `((?:[^<]|<(?!\/?mark)[^>]*>)*?)'(?!<)`.

Starting at the current position, the lazy group repeatedly either exits —
legal when the next character is an apostrophe whose successor is not `<`
(the `'(?!<)` part) — or consumes one deterministic unit: a single non-`<`
character, or a `<` not followed by `mark`/`/mark` together with the `[^>]*>`
chunk up to the first `>`.  Backtracking order of the lazy quantifier means
the exit is tried before each unit, so the function below is exactly the
regex's leftmost match from this start position.  Returns the group text and
the remainder after the matched apostrophe; `none` when no match starts
here. -/
def aposUnitsExit : Nat → List Char → List Char → Option (List Char × List Char)
  | 0, _, _ => none
  | fuel + 1, acc, s =>
    match s with
    | [] => none
    | c :: cs =>
      if c = apos then
        match cs with
        | '<' :: _ => aposUnitsExit fuel (acc ++ [c]) cs
        | _ => some (acc, cs)
      else if c = '<' then
        if (s2c "mark").isPrefixOf cs || (s2c "/mark").isPrefixOf cs then none
        else
          match findGt cs with
          | some (inner, after) => aposUnitsExit fuel (acc ++ [c] ++ inner ++ ['>']) after
          | none => none
      else aposUnitsExit fuel (acc ++ [c]) cs

/-- The replacement text of app.py line 203: `\1` followed by
`mark("'", "#d5b3ff")`.  The `\1` part is prepended by the caller. -/
def purpleAposMark : List Char := markTag (s2c "#d5b3ff") [apos]

/-- app.py lines 201-205: `re.sub` of the apostrophe-highlight pattern.  Scans
left to right; at each position tries the leftmost match via `aposUnitsExit`;
on a match emits the group, the replacement, and continues after the matched
apostrophe (replacements are never re-scanned); otherwise emits one character
and advances. -/
def subApos : Nat → List Char → List Char
  | 0, s => s
  | fuel + 1, s =>
    match s with
    | [] => []
    | c :: cs =>
      match aposUnitsExit (s.length + 1) [] s with
      | some (g, after) => g ++ purpleAposMark ++ subApos fuel after
      | none => c :: subApos fuel cs

/-- The negative lookahead `(?![^<]*>)` of app.py line 213, evaluated on the
text following a period: true iff a `>` occurs before any `<`. -/
def gtBeforeLt : List Char → Bool
  | [] => false
  | c :: cs => if c = '>' then true else if c = '<' then false else gtBeforeLt cs

/-- app.py lines 212-216: `re.sub(r"(\.)(?![^<]*>)", mark(·, "#add8e6"), s)`:
every period NOT followed by a `>`-before-`<` run is wrapped in a blue mark
(note: every period of the text, not only the offsets found invalid). -/
def subPeriod : List Char → List Char
  | [] => []
  | c :: cs =>
    if c = '.' then
      if gtBeforeLt cs then c :: subPeriod cs
      else markTag (s2c "#add8e6") ['.'] ++ subPeriod cs
    else c :: subPeriod cs

/-- One iteration of the common-errors loop of app.py lines 243-270:
`safe_text.replace(escape(error_word), mark(escape(error_word), "#ffff66"))`
— a plain substring replace of every occurrence. -/
def commonErrorMark (w s : List Char) : List Char :=
  replaceAll (escape w) (markTag (s2c "#ffff66") (escape w)) s

/-- The `safe_text` computation of `render_html` for one result item (app.py
lines 161-279): replace the spell-checker markers by red marks (165-166),
escape everything outside existing mark regions (170-177), wrap every phinthu
occurrence (190), run the apostrophe regex substitution (201-205), run the
period regex substitution (212-216), run the common-error replacements
(243-270), and finally wrap the matched L-prefix when an L-sequence error was
flagged (272-279). -/
def renderSafeText (it : ResultItem) : List Char :=
  let t1 := replaceAll kamphitOpen (markTagOpen (s2c "#ffcccc")) it.marked
  let t2 := replaceAll kamphitClose closeMark t1
  let t3 := splitEscapeStep t2
  let t4 := replaceAll (escape [phinthuChar])
    (markTag (s2c "#ffb84d") (escape [phinthuChar])) t3
  let t5 := subApos (t4.length + 1) t4
  let t6 := subPeriod t5
  let t7 := COMMON_ERRORS.foldl (fun s w => commonErrorMark w s) t6
  match it.l_sequence_error, it.l_match with
  | true, some (_, g0) =>
    replaceAll (escape g0) (markTag (s2c "#90ee90") (escape g0)) t7
  | _, _ => t7

/-- Modelled from the spec: `strip_markup` (no such function exists in
src/app.py; the spec's rendering contract in §4.5 and §8 refers to removing
the renderer-inserted markup).  Removes every `<mark[^>]*>` tag (the renderer
only ever opens `mark` tags) and every `</mark>`, keeping all other
characters. -/
def stripMarkup : Nat → List Char → List Char
  | 0, s => s
  | fuel + 1, s =>
    match s with
    | [] => []
    | c :: cs =>
      if closeMark.isPrefixOf s then stripMarkup fuel (s.drop 7)
      else if openMark5.isPrefixOf s then
        match findGt (s.drop 5) with
        | some (_, after) => stripMarkup fuel after
        | none => c :: stripMarkup fuel cs
      else c :: stripMarkup fuel cs

/-- `strip_markup` with its fuel initialised. -/
def strip_markup (s : List Char) : List Char := stripMarkup (s.length + 1) s

/-- Modelled from the spec: the 1-based position of the paragraph at 0-based
index `idx` among the non-empty (trimmed) paragraphs (§3 invariant on
`Finding.line_no`). -/
def specLineNo (paras : List (List Char)) (idx : Nat) : Nat :=
  ((paras.take (idx + 1)).filter (fun p => !(pyStrip p).isEmpty)).length

/-- Modelled from the spec: `ConfidenceClassifier.classify` (§4.2).  No such
component exists in src/app.py — the source calls a single spell-check
library, so the reconciliation of two detector outputs is present only in the
spec: `high = resultA ∩ resultB`, `low = (resultA ∪ resultB) − high`. -/
def classify (A B : Finset String) : Finset String × Finset String :=
  (A ∩ B, (A ∪ B) \ (A ∩ B))

/-- A detector that returns the text unchanged (spell checker finds nothing). -/
def detUnchanged : Detector := fun t => Except.ok t

/-- A detector that raises (models `thaispellcheck.check` throwing). -/
def detFail : Detector := fun _ => Except.error ()

/-- A detector that flags the entire text as one misspelling, returning it
wrapped in the `<คำผิด>` marker pair. -/
def detMarkAll : Detector := fun t => Except.ok (kamphitOpen ++ t ++ kamphitClose)

/-- The result entry `check_docx` builds for the one-paragraph document
`["ฺ"]` (a single U+0E3A) with a detector that finds nothing: the phinthu
flag fires, everything else is clean. -/
def itemC1 : ResultItem :=
  { line_no := 1
    original := [phinthuChar]
    marked := [phinthuChar]
    has_phinthu := true
    has_apostrophe := false
    invalid_periods := []
    common_errors := []
    l_match := none
    l_sequence_error := false }

/-- The result entry `check_docx` builds for the one-paragraph document
`["กขฺง"]` when the detector flags the whole word: a HighConfidenceError-style
span over the full text `[0,4)` (the `<คำผิด>` marks) together with a phinthu
occurrence at offset 2, i.e. the overlap scenario of spec §8. -/
def itemC5 : ResultItem :=
  { line_no := 1
    original := s2c "กขฺง"
    marked := kamphitOpen ++ s2c "กขฺง" ++ kamphitClose
    has_phinthu := true
    has_apostrophe := false
    invalid_periods := []
    common_errors := []
    l_match := none
    l_sequence_error := false }

/-- The result entry built for a paragraph `x'` at paragraph index 0 (an
apostrophe finding, nothing else). -/
def itemApos1 : ResultItem :=
  { line_no := 1
    original := s2c "x" ++ [apos]
    marked := s2c "x" ++ [apos]
    has_phinthu := false
    has_apostrophe := true
    invalid_periods := []
    common_errors := []
    l_match := none
    l_sequence_error := false }

/-- The same apostrophe finding when its paragraph is the second of the
document (paragraph index 1). -/
def itemApos2 : ResultItem :=
  { itemApos1 with line_no := 2 }

/-- Claim C1: the spec's rendering invariant
`strip_markup(render(text, spans, ...)) == escape(text)` fails on the code.
For the paragraph consisting of the single phinthu character (detector finds
nothing), `check_docx` produces exactly `itemC1`; the rendered annotated text
has the apostrophes of the inserted mark tag's own `style` attribute wrapped
by the apostrophe-highlight regex (app.py lines 201-205), so stripping the
markup yields stray attribute text instead of the escaped original. -/
theorem c1_render_strip_escape_violated :
    check_docx detUnchanged [[phinthuChar]] = Except.ok [itemC1] ∧
    strip_markup (renderSafeText itemC1) ≠ escape itemC1.original ∧
    strip_markup (renderSafeText itemC1) =
      [apos] ++ s2c "background-color:#ffb84d;" ++ [apos] ++ ['>', phinthuChar] :=
  ⟨rfl, by decide, by decide⟩

/-- Claim C3: word matching is plain substring matching, not token-boundary
matching.  The real common-error word `มดิ` is flagged for the text `มดิน`
even though it occurs only inside the larger token `มดิน`; and the marking
mechanism of app.py lines 267-270, applied to the claim's own instance
(flagged word `ab`, text `ab cab`), wraps BOTH occurrences of `ab`,
including the one inside the token `cab`. -/
theorem c3_substring_match_violation :
    find_common_errors (s2c "มดิน") = [s2c "มดิ"] ∧
    containsSub (s2c "มดิ") (s2c "มดิน") = true ∧
    commonErrorMark (s2c "ab") (escape (s2c "ab cab")) =
      markTag (s2c "#ffff66") (s2c "ab") ++ s2c " c" ++
        markTag (s2c "#ffff66") (s2c "ab") :=
  ⟨rfl, rfl, by decide⟩

/-- Claim C4: `find_invalid_periods` never performs the claimed
whitelist-containment validation: on any text containing a period — here
`1.`, which the whitelist (Arabic numbered-list marker) ought to validate —
the loop body references the undefined name `VALID_PERIOD_PATTERns` and
raises `NameError`; only period-free texts return (the empty list of)
offsets. -/
theorem c4_find_invalid_periods_raises :
    find_invalid_periods (s2c "1.") = Except.error PyErr.nameError ∧
    find_invalid_periods (s2c "กข") = Except.ok [] :=
  ⟨rfl, rfl⟩

/-- Claim C5: the overlap-resolution scenario fails on the code.  With a
detector-flagged (HighConfidenceError) span covering the whole text `กขฺง`
(`[0,4)`) and a phinthu occurrence at `[2,3)`, the rendering is NOT a single
red wrapper around the escaped text: the phinthu replacement (app.py line
190) inserts a separate orange `#ffb84d` wrapper inside the red mark's
content, and the apostrophe pass then further corrupts the tags. -/
theorem c5_phinthu_wrapper_nested :
    check_docx detMarkAll [s2c "กขฺง"] = Except.ok [itemC5] ∧
    renderSafeText itemC5 ≠ markTag (s2c "#ffcccc") (escape (s2c "กขฺง")) ∧
    containsSub (s2c "#ffb84d") (renderSafeText itemC5) = true :=
  ⟨rfl, by decide, by decide⟩

/-- Claim C6: a failing detector is indeed degraded by `safe_check` (second
conjunct: on the period-free paragraph `x'` a raising detector still yields a
result entry with `marked = original` and the apostrophe check incorporated),
BUT the paragraph analysis does not always return a result when a detector
fails: on the paragraph `a.` it raises `NameError` from
`find_invalid_periods` and produces nothing. -/
theorem c6_paragraph_analysis_raises :
    analyzePara detFail 1 (s2c "a.") = Except.error PyErr.nameError ∧
    analyzePara detFail 1 (s2c "x" ++ [apos]) = Except.ok (some itemApos1) :=
  ⟨rfl, rfl⟩

/-- Claim C7: per-unit failures are NOT isolated.  The two-paragraph document
`["x'", "a."]` aborts the whole scan with `NameError` (zero findings
returned), although the first unit alone yields a finding; no skipped-unit
count exists anywhere in the code. -/
theorem c7_scan_aborts :
    check_docx detUnchanged [s2c "x" ++ [apos], s2c "a."] =
      Except.error PyErr.nameError ∧
    check_docx detUnchanged [s2c "x" ++ [apos]] = Except.ok [itemApos1] :=
  ⟨rfl, rfl⟩

/-- Claim C8 counterexample: for the document `["", "x'"]` the produced
finding has `line_no = 2` (1-based index among ALL paragraphs), while the
1-based position of `x'` among the non-empty trimmed paragraphs is 1. -/
theorem c8_line_no_counterexample :
    check_docx detUnchanged [[], s2c "x" ++ [apos]] = Except.ok [itemApos2] ∧
    itemApos2.line_no = 2 ∧
    specLineNo [[], s2c "x" ++ [apos]] 1 = 1 ∧
    itemApos2.line_no ≠ specLineNo [[], s2c "x" ++ [apos]] 1 :=
  ⟨rfl, rfl, rfl, by decide⟩

/-- Claim C9 counterexample: with the pair list `[(5,1),(5,99)]` the result
is `[5]`, which IS the first pair's line number — the claimed exclusion
fails when a later pair reuses the first pair's line number. -/
theorem c9_first_line_counterexample :
    find_l_errors [(5, 1), (5, 99)] = [5] ∧
    (5 : Nat) ∈ find_l_errors [(5, 1), (5, 99)] :=
  ⟨rfl, by decide⟩

/-- Claim C2: the confidence classification (modelled from the spec, §4.2)
partitions: `high ∩ low = ∅`, `high ∪ low = A ∪ B`, `high` is empty whenever
either input is empty, and both outputs are empty when both inputs are. -/
theorem c2_confidence_partition (A B : Finset String) :
    (classify A B).1 ∩ (classify A B).2 = ∅ ∧
    (classify A B).1 ∪ (classify A B).2 = A ∪ B ∧
    (classify ∅ B).1 = ∅ ∧
    (classify A ∅).1 = ∅ ∧
    (classify (∅ : Finset String) ∅).1 = ∅ ∧
    (classify (∅ : Finset String) ∅).2 = ∅ := by
  refine ⟨Finset.inter_sdiff_self _ _, ?_, ?_, ?_, ?_, ?_⟩
  · exact Finset.union_sdiff_of_subset
      (Finset.inter_subset_left.trans Finset.subset_union_left)
  · simp [classify]
  · simp [classify]
  · simp [classify]
  · simp [classify]

/-- Witness for C2 at concrete sets `A = {a, b}`, `B = {b, c}`. -/
theorem c2_confidence_partition_witness :
    (classify {"a", "b"} {"b", "c"}).1 ∩ (classify {"a", "b"} {"b", "c"}).2 = ∅ ∧
    (classify {"a", "b"} {"b", "c"}).1 ∪ (classify {"a", "b"} {"b", "c"}).2 =
      {"a", "b"} ∪ {"b", "c"} ∧
    (classify ∅ {"b", "c"}).1 = ∅ ∧
    (classify {"a", "b"} ∅).1 = ∅ ∧
    (classify (∅ : Finset String) ∅).1 = ∅ ∧
    (classify (∅ : Finset String) ∅).2 = ∅ :=
  c2_confidence_partition {"a", "b"} {"b", "c"}

/-- Claim C10: `safe_check` never propagates a detector exception (it is a
total function of the detector outcome): if the library raises it returns the
original text; if the marked output minus the marker tags is shorter than
half the original it returns the original; otherwise it returns the marked
output. -/
theorem c10_safe_check_fallback (d : Detector) (text : List Char) :
    ((d text).isOk = false → safe_check d text = text) ∧
    (∀ m, d text = Except.ok m →
      2 * (stripKamphitTags m).length < text.length → safe_check d text = text) ∧
    (∀ m, d text = Except.ok m →
      ¬ 2 * (stripKamphitTags m).length < text.length → safe_check d text = m) := by
  refine ⟨?_, ?_, ?_⟩
  · intro h
    unfold safe_check
    cases hd : d text with
    | error e => rfl
    | ok m => rw [hd] at h; simp [Except.isOk, Except.toBool] at h
  · intro m hm hlen
    unfold safe_check
    rw [hm]
    simp [hlen]
  · intro m hm hlen
    unfold safe_check
    rw [hm]
    simp [hlen]

/-- Witness for C10 at concrete inputs: a raising detector on `ab` returns
`ab`; a detector answering the single letter `x` on `abcd` trips the
half-length heuristic and returns `abcd`. -/
theorem c10_safe_check_fallback_witness :
    safe_check detFail (s2c "ab") = s2c "ab" ∧
    safe_check (fun _ => Except.ok (s2c "x")) (s2c "abcd") = s2c "abcd" :=
  ⟨(c10_safe_check_fallback detFail (s2c "ab")).1 (by decide),
   (c10_safe_check_fallback (fun _ => Except.ok (s2c "x")) (s2c "abcd")).2.1
     (s2c "x") rfl (by decide)⟩

/-- Helper: closed form of the `find_l_errors` loop after the first tuple
has set the running expectation to `e`: position `k` (0-based) of the rest is
reported iff its L-number differs from `e + k`, in input order. -/
theorem find_l_errors_go_eq (l : List (Nat × Nat)) : ∀ e : Nat,
    find_l_errors_go e l =
      (((List.range l.length).zip l).filter
        (fun kq => decide (kq.2.2 ≠ e + kq.1))).map (fun kq => kq.2.1) := by
  induction l with
  | nil => intro e; rfl
  | cons x xs ih =>
    intro e
    obtain ⟨line, cur⟩ := x
    have hpred : ((fun kq : Nat × Nat × Nat => decide (kq.2.2 ≠ e + kq.1)) ∘
        Prod.map Nat.succ id) = (fun kq : Nat × Nat × Nat =>
          decide (kq.2.2 ≠ (e + 1) + kq.1)) := by
      funext kq
      obtain ⟨k, q⟩ := kq
      simp only [Function.comp, Prod.map, id]
      rw [decide_eq_decide]
      omega
    have hmapf : ((fun kq : Nat × Nat × Nat => kq.2.1) ∘ Prod.map Nat.succ id) =
        (fun kq : Nat × Nat × Nat => kq.2.1) := by
      funext kq
      obtain ⟨k, q⟩ := kq
      rfl
    simp only [find_l_errors_go, List.length_cons, List.range_succ_eq_map,
      List.zip_cons_cons, List.filter_cons, List.zip_map_left, List.filter_map,
      hpred, List.map_cons, List.map_map, hmapf]
    rw [ih (e + 1)]
    by_cases hcur : cur = e
    · simp [hcur]
    · simp [hcur]

/-- Helper: every reported line number comes from some tuple of the list. -/
theorem find_l_errors_go_mem (l : List (Nat × Nat)) : ∀ e x,
    x ∈ find_l_errors_go e l → ∃ q ∈ l, x = q.1 := by
  induction l with
  | nil => intro e x hx; simp [find_l_errors_go] at hx
  | cons p ps ih =>
    intro e x hx
    obtain ⟨line, cur⟩ := p
    rw [find_l_errors_go] at hx
    rcases List.mem_append.mp hx with hl | hr
    · refine ⟨(line, cur), List.mem_cons_self _ _, ?_⟩
      by_cases hcur : cur ≠ e
      · simp [hcur] at hl; exact hl
      · simp [hcur] at hl
    · obtain ⟨q, hq, hxq⟩ := ih (e + 1) x hr
      exact ⟨q, List.mem_cons_of_mem _ hq, hxq⟩

/-- Claim C9 (amended): `find_l_errors (p :: rest)` lists, in input order,
exactly the line numbers of those entries of `rest` whose L-number differs
from `p`'s L-number plus one plus the entry's 0-based index in `rest` (the
expectation increments once per entry and is never reset); and provided no
entry of `rest` reuses `p`'s line number, `p`'s line number never appears. -/
theorem c9_find_l_errors_characterization (p : Nat × Nat)
    (rest : List (Nat × Nat)) :
    find_l_errors (p :: rest) =
      (((List.range rest.length).zip rest).filter
        (fun kq => decide (kq.2.2 ≠ p.2 + 1 + kq.1))).map (fun kq => kq.2.1) ∧
    ((∀ q ∈ rest, q.1 ≠ p.1) → p.1 ∉ find_l_errors (p :: rest)) := by
  obtain ⟨line0, l0⟩ := p
  constructor
  · exact find_l_errors_go_eq rest (l0 + 1)
  · intro hdist hmem
    obtain ⟨q, hq, hxq⟩ := find_l_errors_go_mem rest (l0 + 1) line0 hmem
    exact hdist q hq hxq.symm

/-- Witness for C9 at a concrete input: first pair `(5,1)`, rest
`[(6,2),(7,9)]` — entry `(6,2)` matches the expectation `2`, entry `(7,9)`
does not match `3`, so line 7 alone is reported; line 5 is absent. -/
theorem c9_find_l_errors_characterization_witness :
    find_l_errors [(5, 1), (6, 2), (7, 9)] =
      (((List.range 2).zip [(6, 2), (7, 9)]).filter
        (fun kq => decide (kq.2.2 ≠ 1 + 1 + kq.1))).map (fun kq => kq.2.1) ∧
    (5 : Nat) ∉ find_l_errors [(5, 1), (6, 2), (7, 9)] :=
  ⟨(c9_find_l_errors_characterization (5, 1) [(6, 2), (7, 9)]).1,
   (c9_find_l_errors_characterization (5, 1) [(6, 2), (7, 9)]).2 (by decide)⟩

/-- Helper: whatever item `analyzePara` produces carries the line number and
the (stripped) paragraph text it was given. -/
theorem analyzePara_fields (d : Detector) (n : Nat) (text : List Char)
    (item? : Option ResultItem) (h : analyzePara d n text = Except.ok item?) :
    ∀ it ∈ item?.toList, it.line_no = n ∧ it.original = text := by
  intro it hit
  cases hfp : find_invalid_periods text with
  | error e => simp only [analyzePara, hfp] at h; exact absurd h (by simp)
  | ok inv =>
    simp only [analyzePara, hfp] at h
    split at h
    · rw [Except.ok.injEq] at h
      subst h
      rw [Option.mem_toList, Option.mem_def, Option.some.injEq] at hit
      subst hit
      exact ⟨rfl, rfl⟩
    · rw [Except.ok.injEq] at h
      subst h
      simp at hit

/-- Helper: every result entry of the paragraph loop started at index `i`
carries a line number `ln` with `i + 1 ≤ ln ≤ i + length`, and its
`original` is the non-empty strip of the paragraph at offset `ln - 1 - i` of
the remaining paragraph list. -/
theorem scanParas_sound (d : Detector) (ps : List (List Char)) :
    ∀ i res ls, scanParas d i ps = Except.ok (res, ls) →
      ∀ it ∈ res, i + 1 ≤ it.line_no ∧ it.line_no ≤ i + ps.length ∧
        pyStrip (ps.getD (it.line_no - 1 - i) []) = it.original ∧
        it.original ≠ [] := by
  induction ps with
  | nil =>
    intro i res ls h it hit
    rw [scanParas, Except.ok.injEq, Prod.mk.injEq] at h
    obtain ⟨h1, _⟩ := h
    subst h1
    simp at hit
  | cons p ps ih =>
    intro i res ls h it hit
    rw [scanParas] at h
    split at h
    case isTrue hemp =>
      obtain ⟨h1, h2, h3, h4⟩ := ih (i + 1) res ls h it hit
      refine ⟨by omega, by rw [List.length_cons]; omega, ?_, h4⟩
      have hidx : it.line_no - 1 - i = (it.line_no - 1 - (i + 1)) + 1 := by omega
      rw [hidx, List.getD_cons_succ]
      exact h3
    case isFalse hemp =>
      cases hap : analyzePara d (i + 1) (pyStrip p) with
      | error e => rw [hap] at h; simp at h
      | ok item? =>
        rw [hap] at h
        cases hrec : scanParas d (i + 1) ps with
        | error e => rw [hrec] at h; simp at h
        | ok pr =>
          obtain ⟨rest, lrest⟩ := pr
          rw [hrec, Except.ok.injEq, Prod.mk.injEq] at h
          obtain ⟨hres, _⟩ := h
          subst hres
          rcases List.mem_append.mp hit with hl | hr
          · obtain ⟨hln, hor⟩ := analyzePara_fields d (i + 1) (pyStrip p) item? hap it hl
            have hnonemp : pyStrip p ≠ [] := by
              intro hne
              exact hemp (by rw [hne]; rfl)
            refine ⟨by omega, by rw [List.length_cons]; omega, ?_, ?_⟩
            · have hidx : it.line_no - 1 - i = 0 := by omega
              rw [hidx, List.getD_cons_zero, hor]
            · rw [hor]; exact hnonemp
          · obtain ⟨h1, h2, h3, h4⟩ := ih (i + 1) rest lrest hrec it hr
            refine ⟨by omega, by rw [List.length_cons]; omega, ?_, h4⟩
            have hidx : it.line_no - 1 - i = (it.line_no - 1 - (i + 1)) + 1 := by
              omega
            rw [hidx, List.getD_cons_succ]
            exact h3

/-- Claim C8 (amended): every finding's `line_no` is the 1-based index of its
source paragraph among ALL paragraphs of the document (empty paragraphs
included — not only the non-empty ones): `1 ≤ line_no ≤ N`, and the
paragraph at that index strips to the finding's (non-empty) original text.
The numbering is deterministic across runs since `check_docx` is a pure
function of the document and the detector. -/
theorem c8_line_no_all_paragraphs (d : Detector) (paras : List (List Char))
    (res : List ResultItem) (h : check_docx d paras = Except.ok res) :
    ∀ it ∈ res, 1 ≤ it.line_no ∧ it.line_no ≤ paras.length ∧
      pyStrip (paras.getD (it.line_no - 1) []) = it.original ∧
      it.original ≠ [] := by
  intro it hit
  unfold check_docx at h
  cases hscan : scanParas d 0 paras with
  | error e => rw [hscan] at h; simp at h
  | ok pr =>
    obtain ⟨results, lparas⟩ := pr
    rw [hscan, Except.ok.injEq] at h
    subst h
    obtain ⟨it0, hit0, hupd⟩ := List.mem_map.mp hit
    obtain ⟨h1, h2, h3, h4⟩ := scanParas_sound d paras 0 results lparas hscan it0 hit0
    subst hupd
    show 1 ≤ it0.line_no ∧ it0.line_no ≤ paras.length ∧
      pyStrip (paras.getD (it0.line_no - 1) []) = it0.original ∧
      it0.original ≠ []
    refine ⟨h1, by omega, ?_, h4⟩
    have hidx : it0.line_no - 1 - 0 = it0.line_no - 1 := by omega
    rw [hidx] at h3
    exact h3

/-- Witness for C8 at the concrete document `["", "x'"]` with the
nothing-found detector: the single finding `itemApos2` has `line_no = 2`,
within bounds, and paragraph 2 strips to its original text. -/
theorem c8_line_no_all_paragraphs_witness :
    1 ≤ itemApos2.line_no ∧
    itemApos2.line_no ≤ ([[], s2c "x" ++ [apos]] : List (List Char)).length ∧
    pyStrip (([[], s2c "x" ++ [apos]] : List (List Char)).getD
      (itemApos2.line_no - 1) []) = itemApos2.original ∧
    itemApos2.original ≠ [] :=
  c8_line_no_all_paragraphs detUnchanged [[], s2c "x" ++ [apos]] [itemApos2]
    rfl itemApos2 (List.mem_singleton.mpr rfl)

end ThaiChecker
